import Mathlib

/-!
Shallow embedding of `security_scanner.py` (class `SecurityScanner`): the code
analyzer `analyze_code`, the URL analyzer `analyze_url`, the log analyzer
`analyze_logs`, and the de-duplication step of `print_results`.

Python strings are modelled as `String` / `List Char`; each regular expression
from `self.patterns` is translated to an executable matcher over `List Char`
(`re.search` with `re.I` becomes a scan over every suffix of the ASCII-lowered
line); the network and the third-party URL validator are modelled as explicit
inputs to `analyze_url`.
-/

namespace SecurityScanner

/-- Python `str.lower()` / the effect of `re.I`, restricted to ASCII (every
character occurring in the pattern tables is ASCII). -/
def lowerChars (l : List Char) : List Char := l.map Char.toLower

/-- The `\s` character class of Python `re` (ASCII range). -/
def isSpaceChar (c : Char) : Bool :=
  c == ' ' || c == '\t' || c == '\n' || c == '\r' || c == '\x0b' || c == '\x0c'

/-- A word character for the `\b` assertion of Python `re` (ASCII range). -/
def isWordChar (c : Char) : Bool := c.isAlphanum || c == '_'

/-- Position matcher: the literal `s`, then the continuation `k` on the rest. -/
def litThen (s : List Char) (k : List Char → Bool) (l : List Char) : Bool :=
  s.isPrefixOf l && k (l.drop s.length)

/-- Position matcher for `.*` followed by `k`: skip any characters except
newline (`.` does not match `\n` without `re.DOTALL`), then match `k`. -/
def dotStarThen (k : List Char → Bool) : List Char → Bool
  | [] => k []
  | c :: t => k (c :: t) || (c != '\n' && dotStarThen k t)

/-- Position matcher for `\s*` followed by `k`. -/
def wsStarThen (k : List Char → Bool) : List Char → Bool
  | [] => k []
  | c :: t => k (c :: t) || (isSpaceChar c && wsStarThen k t)

/-- Position matcher for `\s+` followed by `k`. -/
def wsPlusThen (k : List Char → Bool) : List Char → Bool
  | [] => false
  | c :: t => isSpaceChar c && wsStarThen k t

/-- Position matcher for `[_-]?` followed by `k`. -/
def optSepThen (k : List Char → Bool) : List Char → Bool
  | [] => k []
  | c :: t => k (c :: t) || ((c == '_' || c == '-') && k t)

/-- End of a pattern: the rest of the line is unconstrained under `re.search`. -/
def anyRest (_ : List Char) : Bool := true

/-- `re.search` existence: try the position matcher at every suffix. -/
def searchFrom (p : List Char → Bool) : List Char → Bool
  | [] => p []
  | c :: t => p (c :: t) || searchFrom p t

/-- `re.search` for a pattern needing the previous character (for `\b`):
try every position, remembering the character just before it. -/
def searchPrevFrom (p : Option Char → List Char → Bool) :
    Option Char → List Char → Bool
  | prev, [] => p prev []
  | prev, c :: t => p prev (c :: t) || searchPrevFrom p (some c) t

/-- `\b` holds before a word character iff the previous character
is absent or not a word character. -/
def boundaryBefore : Option Char → Bool
  | none => true
  | some c => !isWordChar c

/-- `\b` holds after a word character iff the next character
is absent or not a word character. -/
def boundaryAfter : List Char → Bool
  | [] => true
  | c :: _ => !isWordChar c

/-! The pattern tables `self.patterns`, one matcher per regular expression.
Each matcher expects the ASCII-lowered line (`re.I`), so the literals below
are the lowered forms of the patterns in the source. -/

/-- `SELECT.*FROM.*WHERE` -/
def pat_select_from_where : List Char → Bool :=
  searchFrom (litThen "select".data (dotStarThen (litThen "from".data
    (dotStarThen (litThen "where".data anyRest)))))

/-- `INSERT\s+INTO` -/
def pat_insert_into : List Char → Bool :=
  searchFrom (litThen "insert".data (wsPlusThen (litThen "into".data anyRest)))

/-- `UPDATE.*SET` -/
def pat_update_set : List Char → Bool :=
  searchFrom (litThen "update".data (dotStarThen (litThen "set".data anyRest)))

/-- `DELETE\s+FROM` -/
def pat_delete_from : List Char → Bool :=
  searchFrom (litThen "delete".data (wsPlusThen (litThen "from".data anyRest)))

/-- `UNION\s+SELECT` -/
def pat_union_select : List Char → Bool :=
  searchFrom (litThen "union".data (wsPlusThen (litThen "select".data anyRest)))

def sql_injection_patterns : List (List Char → Bool) :=
  [pat_select_from_where, pat_insert_into, pat_update_set,
   pat_delete_from, pat_union_select]

/-- `<script.*?>` (laziness of `.*?` is irrelevant for match existence) -/
def pat_script_tag : List Char → Bool :=
  searchFrom (litThen "<script".data (dotStarThen (litThen ">".data anyRest)))

/-- `javascript:` -/
def pat_javascript : List Char → Bool :=
  searchFrom (litThen "javascript:".data anyRest)

/-- `onerror=` -/
def pat_onerror : List Char → Bool :=
  searchFrom (litThen "onerror=".data anyRest)

/-- `onload=` -/
def pat_onload : List Char → Bool :=
  searchFrom (litThen "onload=".data anyRest)

/-- `eval\(` -/
def pat_eval : List Char → Bool :=
  searchFrom (litThen "eval(".data anyRest)

/-- `\b(?:document\.write|innerHTML|outerHTML|insertAdjacentHTML)\b` -/
def pat_dom_sinks : List Char → Bool := fun l =>
  searchPrevFrom
    (fun prev rest => boundaryBefore prev &&
      (["document.write", "innerhtml", "outerhtml", "insertadjacenthtml"].any
        fun w => litThen w.data boundaryAfter rest))
    none l

def xss_patterns : List (List Char → Bool) :=
  [pat_script_tag, pat_javascript, pat_onerror, pat_onload, pat_eval,
   pat_dom_sinks]

/-- `api[_-]?key` -/
def pat_api_key : List Char → Bool :=
  searchFrom (litThen "api".data (optSepThen (litThen "key".data anyRest)))

/-- `secret[_-]?key` -/
def pat_secret_key : List Char → Bool :=
  searchFrom (litThen "secret".data (optSepThen (litThen "key".data anyRest)))

/-- `password` -/
def pat_password : List Char → Bool :=
  searchFrom (litThen "password".data anyRest)

/-- `aws[_-]?key` -/
def pat_aws_key : List Char → Bool :=
  searchFrom (litThen "aws".data (optSepThen (litThen "key".data anyRest)))

/-- `credentials` -/
def pat_credentials : List Char → Bool :=
  searchFrom (litThen "credentials".data anyRest)

def exposed_secrets_patterns : List (List Char → Bool) :=
  [pat_api_key, pat_secret_key, pat_password, pat_aws_key, pat_credentials]

/-- `debug\s*=\s*true` -/
def pat_debug_true : List Char → Bool :=
  searchFrom (litThen "debug".data (wsStarThen (litThen "=".data
    (wsStarThen (litThen "true".data anyRest)))))

/-- `ALLOW_ALL_ORIGINS` -/
def pat_allow_all_origins : List Char → Bool :=
  searchFrom (litThen "allow_all_origins".data anyRest)

/-- `JWT_SECRET` -/
def pat_jwt_secret : List Char → Bool :=
  searchFrom (litThen "jwt_secret".data anyRest)

def insecure_configs_patterns : List (List Char → Bool) :=
  [pat_debug_true, pat_allow_all_origins, pat_jwt_secret]

/-- `any(re.search(pattern, line, re.I) for pattern in pats)`:
the line is lowered once and every matcher of the category is tried. -/
def matchesAny (pats : List (List Char → Bool)) (line : List Char) : Bool :=
  pats.any fun p => p (lowerChars line)

/-- Python `kw in line.lower()` for an ASCII keyword `kw`:
`kw` occurs as a contiguous substring of the lowered line. -/
def containsSub (line : List Char) (kw : String) : Bool :=
  searchFrom (fun l => kw.data.isPrefixOf l) (lowerChars line)

/-- The finding dictionaries produced by the scanner: keys `type`,
`risk_level`, `description` always present, `location` and `fix` optional. -/
structure Finding where
  type : String
  risk_level : String
  description : String
  location : Option String := none
  fix : Option String := none
deriving DecidableEq, Repr

/-- `f'Line {line_number + 1}'` -/
def locString (line_number : Nat) : String := "Line " ++ Nat.repr (line_number + 1)

/-- Python `code.split('\n')`. -/
def splitLines : List Char → List (List Char)
  | [] => [[]]
  | c :: cs =>
    match splitLines cs with
    | [] => [[]]
    | l :: ls => if c == '\n' then [] :: l :: ls else (c :: l) :: ls

/-- The dictionary appended by the SQL-injection loop for line `line_number`. -/
def sqlFinding (line_number : Nat) : Finding :=
  { type := "SQL Injection", risk_level := "Critical",
    description := "Potential SQL injection vulnerability detected. Raw SQL queries found without proper parameterization.",
    location := some (locString line_number),
    fix := some "Use parameterized queries or an ORM to prevent SQL injection:\ncursor.execute(\"SELECT * FROM users WHERE id = %s\", (user_id,))" }

/-- The dictionary appended by the XSS loop for line `line_number`. -/
def xssFinding (line_number : Nat) : Finding :=
  { type := "Cross-Site Scripting (XSS)", risk_level := "High",
    description := "Potential XSS vulnerability. Unescaped user input could be executed as JavaScript.",
    location := some (locString line_number),
    fix := some "Escape all user input before rendering:\nfrom html import escape\nescaped_content = escape(user_input)" }

/-- The dictionary appended by the exposed-secrets loop for line `line_number`. -/
def secretsFinding (line_number : Nat) : Finding :=
  { type := "Exposed Secrets", risk_level := "Critical",
    description := "Potential exposed secrets or credentials in code.",
    location := some (locString line_number),
    fix := some "Move sensitive data to environment variables:\nimport os\napi_key = os.environ.get(\"API_KEY\")" }

/-- The dictionary appended by the misconfiguration loop for line `line_number`. -/
def configsFinding (line_number : Nat) : Finding :=
  { type := "Security Misconfiguration", risk_level := "High",
    description := "Potential security misconfiguration detected.",
    location := some (locString line_number),
    fix := some "Ensure proper security configurations in production:\nDEBUG = False\nALLOWED_HOSTS = [\"example.com\"]\nCORS_ORIGIN_WHITELIST = [\"https://trusted-site.com\"]" }

/-- The SQL-injection loop body of `analyze_code`, lines 69-79. -/
def sql_check (line_number : Nat) (line : List Char) : Option Finding :=
  if matchesAny sql_injection_patterns line then
    if !containsSub line "parameterized" && !containsSub line "prepare" then
      some (sqlFinding line_number)
    else none
  else none

/-- The XSS loop body of `analyze_code`, lines 82-93. -/
def xss_check (line_number : Nat) (line : List Char) : Option Finding :=
  if matchesAny xss_patterns line then
    if !containsSub line "escape" && !containsSub line "sanitize" then
      some (xssFinding line_number)
    else none
  else none

/-- The exposed-secrets loop body of `analyze_code`, lines 96-106. -/
def secrets_check (line_number : Nat) (line : List Char) : Option Finding :=
  if matchesAny exposed_secrets_patterns line then
    some (secretsFinding line_number)
  else none

/-- The security-misconfiguration loop body of `analyze_code`, lines 109-120. -/
def configs_check (line_number : Nat) (line : List Char) : Option Finding :=
  if matchesAny insecure_configs_patterns line then
    some (configsFinding line_number)
  else none

/-- `SecurityScanner.analyze_code`: one pass over the enumerated lines per
category — each `for line_number, line in enumerate(lines)` loop with a
conditional `append` is a `filterMap` over the enumerated lines — and the
four passes appended in source order. -/
def analyze_code (code : String) : List Finding :=
  let lines := splitLines code.data
  (lines.enum.filterMap fun p => sql_check p.1 p.2) ++
  (lines.enum.filterMap fun p => xss_check p.1 p.2) ++
  (lines.enum.filterMap fun p => secrets_check p.1 p.2) ++
  (lines.enum.filterMap fun p => configs_check p.1 p.2)

/-! ### URL analyzer

`analyze_url` validates the URL with the third-party `validators.url` and then
performs one HTTP GET with `requests`.  Both effects are modelled as explicit
inputs: `valid` is the truth value of `validators.url(url)`, and `HttpOutcome`
is what `requests.get(url, timeout=10, verify=True)` did — a successful
response carrying its header names, an `requests.exceptions.SSLError`, or any
other `requests.exceptions.RequestException` carrying its message. -/

inductive HttpOutcome where
  | success (headers : List String)
  | sslError
  | requestError (message : String)

/-- The `security_headers` table of `analyze_url` (header, description). -/
def security_headers : List (String × String) :=
  [("Strict-Transport-Security", "Missing HSTS header"),
   ("X-Content-Type-Options", "Missing X-Content-Type-Options header"),
   ("X-Frame-Options", "Missing X-Frame-Options header"),
   ("Content-Security-Policy", "Missing Content Security Policy")]

/-- `header in headers` on a `requests` response: header lookup in
`requests.structures.CaseInsensitiveDict` is case-insensitive. -/
def headerPresent (headers : List String) (h : String) : Bool :=
  headers.any fun x => lowerChars x.data == lowerChars h.data

/-- `SecurityScanner.analyze_url`, lines 124-175. -/
def analyze_url (url : String) (valid : Bool) (outcome : HttpOutcome) :
    List Finding :=
  if !valid then
    [{ type := "Invalid URL", risk_level := "Low",
       description := "The provided URL is not valid." }]
  else
    match outcome with
    | .success headers =>
        (security_headers.filterMap fun hm =>
          if !headerPresent headers hm.1 then
            some { type := "Missing Security Headers", risk_level := "Medium",
                   description := hm.2,
                   fix := some ("Add the " ++ hm.1 ++ " header to your server responses") }
          else none)
        ++ (if url.startsWith "http://" then
              [{ type := "Insecure Protocol", risk_level := "High",
                 description := "Website is using HTTP instead of HTTPS",
                 fix := some "Implement HTTPS using a valid SSL/TLS certificate" }]
            else [])
    | .sslError =>
        [{ type := "SSL/TLS Error", risk_level := "Critical",
           description := "SSL/TLS certificate validation failed",
           fix := some "Ensure a valid SSL certificate is properly installed" }]
    | .requestError msg =>
        [{ type := "Connection Error", risk_level := "Low",
           description := "Error connecting to URL: " ++ msg }]

/-! ### Log analyzer

`analyze_logs` runs `re.finditer(r'(?i)\.\..*?\.\..*?', logs)` over the whole
text.  A match is `..`, then the shortest stretch of non-newline characters
(`.*?` without `re.DOTALL`), then `..`; the trailing lazy `.*?` matches the
empty string.  `finditer` yields leftmost, non-overlapping matches, resuming
after each match's end. -/

/-- The lazy `.*?\.\.` tail at the current position: the shortest gap of
non-newline characters followed by `..`; `none` if there is none. -/
def gapToDots : List Char → Option (List Char)
  | '.' :: '.' :: _ => some []
  | c :: cs => if c == '\n' then none else (gapToDots cs).map (c :: ·)
  | [] => none

/-- Try the traversal pattern at the current position; returns the matched
text (`..` ++ shortest gap ++ `..`, the final `.*?` matching empty). -/
def travMatchAt : List Char → Option (List Char)
  | '.' :: '.' :: rest => (gapToDots rest).map fun g => '.' :: '.' :: (g ++ ['.', '.'])
  | _ => none

/-- The `re.finditer` scan: at each position try the pattern; on a match,
record (start offset, text) and resume at the match end; otherwise advance
one character.  The fuel argument bounds the number of steps by the length
of the text plus one, which the scan never exceeds. -/
def travScanF : Nat → Nat → List Char → List (Nat × List Char)
  | 0, _, _ => []
  | fuel + 1, pos, s =>
    match travMatchAt s with
    | some t => (pos, t) :: travScanF fuel (pos + t.length) (s.drop t.length)
    | none =>
      match s with
      | [] => []
      | _ :: cs => travScanF fuel (pos + 1) cs

/-- All matches of the traversal pattern, leftmost and non-overlapping. -/
def travMatches (logs : List Char) : List (Nat × List Char) :=
  travScanF (logs.length + 1) 0 logs

/-- The finding built for one match: the line number is
`logs.count('\n', 0, match.start()) + 1`, i.e. one plus the number of
newline characters strictly before the match start. -/
def travFinding (logs : List Char) (m : Nat × List Char) : Finding :=
  { type := "Directory Traversal", risk_level := "High",
    description := "Suspicious pattern detected in logs indicating potential directory traversal attack.",
    fix := some "Implement input validation and WAF rules",
    location := some ("Line " ++ Nat.repr ((logs.take m.1).count '\n' + 1)
                       ++ ": " ++ m.2.asString) }

/-- The `for match in matches: vulnerabilities.append(...)` loop. -/
def analyze_logs_loop (logs : List Char) :
    List (Nat × List Char) → List Finding → List Finding
  | [], acc => acc
  | m :: ms, acc => analyze_logs_loop logs ms (acc ++ [travFinding logs m])

/-- `SecurityScanner.analyze_logs`, lines 177-191. -/
def analyze_logs (logs : String) : List Finding :=
  analyze_logs_loop logs.data (travMatches logs.data) []

/-! ### The Reporter's de-duplication (`print_results`, lines 199-205) -/

/-- The `for vuln in vulnerabilities` loop with the `seen_types` set
(modelled as the list of types already seen). -/
def dedup_loop : List Finding → List Finding → List String → List Finding
  | [], acc, _ => acc
  | v :: vs, acc, seen =>
    if seen.contains v.type then dedup_loop vs acc seen
    else dedup_loop vs (acc ++ [v]) (v.type :: seen)

/-- The de-duplication step of `print_results`: `unique_vulnerabilities`. -/
def remove_duplicates (vulns : List Finding) : List Finding :=
  dedup_loop vulns [] []

/-- Spec reading of the de-duplication step: keep the first finding of each
distinct `type`, preserving the original order of those kept. -/
def firstPerType : List Finding → List Finding
  | [] => []
  | v :: vs => v :: firstPerType (vs.filter fun w => w.type != v.type)
termination_by l => l.length
decreasing_by exact Nat.lt_succ_of_le (List.length_filter_le _ _)

/-! ### Reading back the decimal numeral inside a location string -/

/-- Decimal decoding of a digit string onto an accumulator. -/
def decodeDigits (v : Nat) : List Char → Nat
  | [] => v
  | c :: cs => decodeDigits (v * 10 + (c.toNat - '0'.toNat)) cs

/-- The line number stored in a finding's location `Line <n>` (or
`Line <n>: <text>` would decode its leading digits were there any after;
for the code analyzer the location is exactly `Line <n>`). -/
def locLineNum (f : Finding) : Nat :=
  decodeDigits 0 (((f.location.getD "").data).drop 5)

/-- The line at index `i` of the split code (`[]` when out of range). -/
def lineAt (code : String) (i : Nat) : List Char :=
  ((splitLines code.data)[i]?).getD []

/-- All findings of `analyze_code code` whose type is `ty` and whose
location names source line `i + 1`. -/
def findingsFor (code : String) (ty : String) (i : Nat) : List Finding :=
  (analyze_code code).filter
    fun f => f.type == ty && f.location == some (locString i)

/-- The position of a finding type in the category pass order of
`analyze_code`. -/
def categoryRank (t : String) : Nat :=
  if t = "SQL Injection" then 0
  else if t = "Cross-Site Scripting (XSS)" then 1
  else if t = "Exposed Secrets" then 2
  else if t = "Security Misconfiguration" then 3
  else 4

/-- The display order of the code analyzer: category pass order first,
then ascending line number within a category. -/
def codeOrder (f g : Finding) : Prop :=
  categoryRank f.type < categoryRank g.type ∨
    (categoryRank f.type = categoryRank g.type ∧ locLineNum f < locLineNum g)

theorem decodeDigits_digitChar (v d : Nat) (cs : List Char) (h : d < 10) :
    decodeDigits v (Nat.digitChar d :: cs) = decodeDigits (v * 10 + d) cs := by
  have hd : (Nat.digitChar d).toNat - '0'.toNat = d := by
    interval_cases d <;> decide
  show decodeDigits (v * 10 + ((Nat.digitChar d).toNat - '0'.toNat)) cs
      = decodeDigits (v * 10 + d) cs
  rw [hd]

theorem decodeDigits_toDigitsCore :
    ∀ (fuel n : Nat) (acc : List Char), n < fuel →
      decodeDigits 0 (Nat.toDigitsCore 10 fuel n acc) = decodeDigits n acc := by
  intro fuel
  induction fuel with
  | zero => intro n acc h; omega
  | succ f ih =>
    intro n acc h
    by_cases h10 : n / 10 = 0
    · have hn : n < 10 := by omega
      simp only [Nat.toDigitsCore, h10, if_true]
      rw [decodeDigits_digitChar 0 (n % 10) acc (Nat.mod_lt n (by omega))]
      have : n % 10 = n := Nat.mod_eq_of_lt hn
      simp [this]
    · have hlt : n / 10 < f := by
        have h1 : n / 10 < n := Nat.div_lt_self (by omega) (by omega)
        omega
      simp only [Nat.toDigitsCore, h10, if_false]
      rw [ih (n / 10) (Nat.digitChar (n % 10) :: acc) hlt]
      rw [decodeDigits_digitChar (n / 10) (n % 10) acc (Nat.mod_lt n (by omega))]
      congr 1
      omega

theorem decodeDigits_repr (n : Nat) : decodeDigits 0 (Nat.repr n).data = n := by
  show decodeDigits 0 (Nat.toDigitsCore 10 (n + 1) n []) = n
  rw [decodeDigits_toDigitsCore (n + 1) n [] (Nat.lt_succ_self n)]
  rfl

theorem decodeDigits_locString (i : Nat) :
    decodeDigits 0 ((locString i).data.drop 5) = i + 1 := by
  have h : (locString i).data = "Line ".data ++ (Nat.repr (i + 1)).data := rfl
  have h2 : ("Line ".data).length = 5 := rfl
  rw [h, List.drop_left' h2]
  exact decodeDigits_repr (i + 1)

theorem locString_inj {i j : Nat} (h : locString i = locString j) : i = j := by
  have := congrArg (fun s => decodeDigits 0 (s.data.drop 5)) h
  simp only [decodeDigits_locString] at this
  omega

theorem locLineNum_of_locString {f : Finding} {i : Nat}
    (h : f.location = some (locString i)) : locLineNum f = i + 1 := by
  simp [locLineNum, h, decodeDigits_locString]

/-! ### Structure of `analyze_code` -/

theorem sql_check_some {i : Nat} {l : List Char} {f : Finding}
    (h : sql_check i l = some f) : f = sqlFinding i := by
  unfold sql_check at h
  split at h
  · split at h
    · exact (Option.some.inj h).symm
    · exact absurd h (by simp)
  · exact absurd h (by simp)

theorem xss_check_some {i : Nat} {l : List Char} {f : Finding}
    (h : xss_check i l = some f) : f = xssFinding i := by
  unfold xss_check at h
  split at h
  · split at h
    · exact (Option.some.inj h).symm
    · exact absurd h (by simp)
  · exact absurd h (by simp)

theorem secrets_check_some {i : Nat} {l : List Char} {f : Finding}
    (h : secrets_check i l = some f) : f = secretsFinding i := by
  unfold secrets_check at h
  split at h
  · exact (Option.some.inj h).symm
  · exact absurd h (by simp)

theorem configs_check_some {i : Nat} {l : List Char} {f : Finding}
    (h : configs_check i l = some f) : f = configsFinding i := by
  unfold configs_check at h
  split at h
  · exact (Option.some.inj h).symm
  · exact absurd h (by simp)

/-- Filtering one category pass by a location keeps exactly the finding the
check produced for that line (if any): passes are `filterMap`s over the
enumerated lines and distinct line numbers give distinct location strings. -/
theorem pass_filter_loc (chk : Nat → List Char → Option Finding)
    (hloc : ∀ i l f, chk i l = some f → f.location = some (locString i)) :
    ∀ (lines : List (List Char)) (k i : Nat),
      ((List.enumFrom k lines).filterMap (fun p => chk p.1 p.2)).filter
          (fun f => f.location == some (locString i))
        = if k ≤ i then (lines[i - k]?.bind (chk i)).toList else [] := by
  intro lines
  induction lines with
  | nil =>
    intro k i
    simp only [List.enumFrom, List.filterMap_nil, List.filter_nil,
      List.getElem?_nil, Option.none_bind, Option.toList_none]
    split <;> rfl
  | cons l ls ih =>
    intro k i
    have hshift : k ≠ i →
        (if k ≤ i then ((l :: ls)[i - k]?.bind (chk i)).toList else [])
          = if k + 1 ≤ i then (ls[i - (k + 1)]?.bind (chk i)).toList else [] := by
      intro hki
      rcases Nat.lt_trichotomy k i with hk | hk | hk
      · rw [if_pos (by omega), if_pos (by omega)]
        have hidx : i - k = (i - (k + 1)) + 1 := by omega
        rw [hidx, List.getElem?_cons_succ]
      · exact absurd hk hki
      · rw [if_neg (by omega), if_neg (by omega)]
    rw [show List.enumFrom k (l :: ls) = (k, l) :: List.enumFrom (k + 1) ls from rfl]
    cases hc : chk k l with
    | none =>
      simp only [List.filterMap_cons, hc]
      rw [ih (k + 1) i]
      by_cases hki : k = i
      · subst hki
        rw [if_neg (by omega), if_pos (by omega)]
        simp [hc]
      · exact (hshift hki).symm
    | some f =>
      have hf : f.location = some (locString k) := hloc k l f hc
      simp only [List.filterMap_cons, hc]
      rw [List.filter_cons]
      by_cases hki : k = i
      · subst hki
        rw [if_pos (by simp [hf]), ih (k + 1) k, if_neg (by omega)]
        rw [if_pos (Nat.le_refl k)]
        simp [hc]
      · have hne : (f.location == some (locString i)) = false := by
          rw [hf, beq_eq_false_iff_ne]
          intro hcon
          exact hki (locString_inj (Option.some.inj hcon))
        rw [if_neg (by simp [hne]), ih (k + 1) i]
        exact (hshift hki).symm

theorem sql_check_type {i : Nat} {l : List Char} {f : Finding}
    (h : sql_check i l = some f) : f.type = "SQL Injection" := by
  rw [sql_check_some h]; rfl

theorem sql_check_loc {i : Nat} {l : List Char} {f : Finding}
    (h : sql_check i l = some f) : f.location = some (locString i) := by
  rw [sql_check_some h]; rfl

theorem xss_check_type {i : Nat} {l : List Char} {f : Finding}
    (h : xss_check i l = some f) : f.type = "Cross-Site Scripting (XSS)" := by
  rw [xss_check_some h]; rfl

theorem xss_check_loc {i : Nat} {l : List Char} {f : Finding}
    (h : xss_check i l = some f) : f.location = some (locString i) := by
  rw [xss_check_some h]; rfl

theorem secrets_check_type {i : Nat} {l : List Char} {f : Finding}
    (h : secrets_check i l = some f) : f.type = "Exposed Secrets" := by
  rw [secrets_check_some h]; rfl

theorem secrets_check_loc {i : Nat} {l : List Char} {f : Finding}
    (h : secrets_check i l = some f) : f.location = some (locString i) := by
  rw [secrets_check_some h]; rfl

theorem configs_check_type {i : Nat} {l : List Char} {f : Finding}
    (h : configs_check i l = some f) : f.type = "Security Misconfiguration" := by
  rw [configs_check_some h]; rfl

theorem configs_check_loc {i : Nat} {l : List Char} {f : Finding}
    (h : configs_check i l = some f) : f.location = some (locString i) := by
  rw [configs_check_some h]; rfl

/-- Filtering a pass for its own category's type is the same as filtering
for the location only. -/
theorem pass_filter_same (chk : Nat → List Char → Option Finding) (ty : String)
    (hty : ∀ i l f, chk i l = some f → f.type = ty)
    (lines : List (List Char)) (i : Nat) :
    ((lines.enum.filterMap fun p => chk p.1 p.2).filter
        fun f => f.type == ty && f.location == some (locString i))
      = ((lines.enum.filterMap fun p => chk p.1 p.2).filter
          fun f => f.location == some (locString i)) := by
  apply List.filter_congr
  intro f hf
  obtain ⟨p, _, hchk⟩ := List.mem_filterMap.1 hf
  have := hty p.1 p.2 f hchk
  simp [this]

/-- Filtering a pass for a different category's type gives nothing. -/
theorem pass_filter_other (chk : Nat → List Char → Option Finding)
    (ty ty' : String) (hty : ∀ i l f, chk i l = some f → f.type = ty)
    (hne : ty ≠ ty') (lines : List (List Char)) (i : Nat) :
    ((lines.enum.filterMap fun p => chk p.1 p.2).filter
        fun f => f.type == ty' && f.location == some (locString i)) = [] := by
  rw [List.filter_eq_nil_iff]
  intro f hf
  obtain ⟨p, _, hchk⟩ := List.mem_filterMap.1 hf
  have := hty p.1 p.2 f hchk
  simp [this, hne]

theorem analyze_code_eq (code : String) :
    analyze_code code
      = ((splitLines code.data).enum.filterMap fun p => sql_check p.1 p.2) ++
        ((splitLines code.data).enum.filterMap fun p => xss_check p.1 p.2) ++
        ((splitLines code.data).enum.filterMap fun p => secrets_check p.1 p.2) ++
        ((splitLines code.data).enum.filterMap fun p => configs_check p.1 p.2) := by
  simp only [analyze_code, List.append_assoc]

theorem findingsFor_sql (code : String) (i : Nat) :
    findingsFor code "SQL Injection" i
      = (((splitLines code.data)[i]?).bind (sql_check i)).toList := by
  unfold findingsFor
  rw [analyze_code_eq]
  simp only [List.filter_append]
  rw [pass_filter_same sql_check _ (fun _ _ _ h => sql_check_type h),
      pass_filter_other xss_check _ _ (fun _ _ _ h => xss_check_type h) (by decide),
      pass_filter_other secrets_check _ _ (fun _ _ _ h => secrets_check_type h) (by decide),
      pass_filter_other configs_check _ _ (fun _ _ _ h => configs_check_type h) (by decide)]
  rw [show ∀ (l : List (List Char)), l.enum = l.enumFrom 0 from fun _ => rfl]
  rw [pass_filter_loc sql_check (fun _ _ _ h => sql_check_loc h) _ 0 i,
      if_pos (Nat.zero_le i), Nat.sub_zero]
  simp

theorem findingsFor_xss (code : String) (i : Nat) :
    findingsFor code "Cross-Site Scripting (XSS)" i
      = (((splitLines code.data)[i]?).bind (xss_check i)).toList := by
  unfold findingsFor
  rw [analyze_code_eq]
  simp only [List.filter_append]
  rw [pass_filter_same xss_check _ (fun _ _ _ h => xss_check_type h),
      pass_filter_other sql_check _ _ (fun _ _ _ h => sql_check_type h) (by decide),
      pass_filter_other secrets_check _ _ (fun _ _ _ h => secrets_check_type h) (by decide),
      pass_filter_other configs_check _ _ (fun _ _ _ h => configs_check_type h) (by decide)]
  rw [show ∀ (l : List (List Char)), l.enum = l.enumFrom 0 from fun _ => rfl]
  rw [pass_filter_loc xss_check (fun _ _ _ h => xss_check_loc h) _ 0 i,
      if_pos (Nat.zero_le i), Nat.sub_zero]
  simp

theorem findingsFor_secrets (code : String) (i : Nat) :
    findingsFor code "Exposed Secrets" i
      = (((splitLines code.data)[i]?).bind (secrets_check i)).toList := by
  unfold findingsFor
  rw [analyze_code_eq]
  simp only [List.filter_append]
  rw [pass_filter_same secrets_check _ (fun _ _ _ h => secrets_check_type h),
      pass_filter_other sql_check _ _ (fun _ _ _ h => sql_check_type h) (by decide),
      pass_filter_other xss_check _ _ (fun _ _ _ h => xss_check_type h) (by decide),
      pass_filter_other configs_check _ _ (fun _ _ _ h => configs_check_type h) (by decide)]
  rw [show ∀ (l : List (List Char)), l.enum = l.enumFrom 0 from fun _ => rfl]
  rw [pass_filter_loc secrets_check (fun _ _ _ h => secrets_check_loc h) _ 0 i,
      if_pos (Nat.zero_le i), Nat.sub_zero]
  simp

theorem findingsFor_configs (code : String) (i : Nat) :
    findingsFor code "Security Misconfiguration" i
      = (((splitLines code.data)[i]?).bind (configs_check i)).toList := by
  unfold findingsFor
  rw [analyze_code_eq]
  simp only [List.filter_append]
  rw [pass_filter_same configs_check _ (fun _ _ _ h => configs_check_type h),
      pass_filter_other sql_check _ _ (fun _ _ _ h => sql_check_type h) (by decide),
      pass_filter_other xss_check _ _ (fun _ _ _ h => xss_check_type h) (by decide),
      pass_filter_other secrets_check _ _ (fun _ _ _ h => secrets_check_type h) (by decide)]
  rw [show ∀ (l : List (List Char)), l.enum = l.enumFrom 0 from fun _ => rfl]
  rw [pass_filter_loc configs_check (fun _ _ _ h => configs_check_loc h) _ 0 i,
      if_pos (Nat.zero_le i), Nat.sub_zero]
  simp

/-- Every finding of `analyze_code` is one of the four category findings
for some in-range line index. -/
theorem mem_analyze_code {code : String} {f : Finding}
    (h : f ∈ analyze_code code) :
    ∃ i, i < (splitLines code.data).length ∧
      (f = sqlFinding i ∨ f = xssFinding i ∨ f = secretsFinding i ∨
       f = configsFinding i) := by
  rw [analyze_code_eq] at h
  simp only [List.mem_append] at h
  rcases h with ((h | h) | h) | h <;>
    obtain ⟨p, hp, hchk⟩ := List.mem_filterMap.1 h
  · exact ⟨p.1, by simpa using List.fst_lt_of_mem_enum hp,
      Or.inl (sql_check_some hchk)⟩
  · exact ⟨p.1, by simpa using List.fst_lt_of_mem_enum hp,
      Or.inr (Or.inl (xss_check_some hchk))⟩
  · exact ⟨p.1, by simpa using List.fst_lt_of_mem_enum hp,
      Or.inr (Or.inr (Or.inl (secrets_check_some hchk)))⟩
  · exact ⟨p.1, by simpa using List.fst_lt_of_mem_enum hp,
      Or.inr (Or.inr (Or.inr (configs_check_some hchk)))⟩

/-! ### Output order of `analyze_code` -/

theorem pairwise_fst_lt_enumFrom {α : Type} :
    ∀ (k : Nat) (l : List α),
      List.Pairwise (fun p q : Nat × α => p.1 < q.1) (List.enumFrom k l) := by
  intro k l
  induction l generalizing k with
  | nil => exact List.Pairwise.nil
  | cons x xs ih =>
    rw [show List.enumFrom k (x :: xs) = (k, x) :: List.enumFrom (k + 1) xs
          from rfl]
    exact List.Pairwise.cons
      (fun q hq =>
        Nat.lt_of_lt_of_le (Nat.lt_succ_self k) (List.le_fst_of_mem_enumFrom hq))
      (ih (k + 1))

theorem pass_pairwise (chk : Nat → List Char → Option Finding)
    (F : Nat → Finding) (hshape : ∀ i l f, chk i l = some f → f = F i)
    (hloc : ∀ i, (F i).location = some (locString i))
    (hty : ∀ i j, (F i).type = (F j).type) (lines : List (List Char)) :
    List.Pairwise codeOrder (lines.enum.filterMap fun p => chk p.1 p.2) := by
  apply List.Pairwise.filterMap (fun p : Nat × List Char => chk p.1 p.2)
    (R := fun p q : Nat × List Char => p.1 < q.1)
  · intro p q hpq b hb b' hb'
    have hb1 : b = F p.1 := hshape p.1 p.2 b hb
    have hb2 : b' = F q.1 := hshape q.1 q.2 b' hb'
    subst hb1; subst hb2
    right
    refine ⟨by rw [hty p.1 q.1], ?_⟩
    rw [locLineNum_of_locString (hloc p.1), locLineNum_of_locString (hloc q.1)]
    omega
  · exact pairwise_fst_lt_enumFrom 0 lines

theorem lineAt_getElem {code : String} {i : Nat}
    (hi : i < (splitLines code.data).length) :
    (splitLines code.data)[i]? = some (lineAt code i) := by
  rw [List.getElem?_eq_getElem hi]
  simp [lineAt, List.getElem?_eq_getElem hi]

theorem pass_mem_shape (chk : Nat → List Char → Option Finding)
    (F : Nat → Finding) (hshape : ∀ i l f, chk i l = some f → f = F i)
    {lines : List (List Char)} {f : Finding}
    (h : f ∈ lines.enum.filterMap fun p => chk p.1 p.2) : ∃ i, f = F i := by
  obtain ⟨p, _, hchk⟩ := List.mem_filterMap.1 h
  exact ⟨p.1, hshape p.1 p.2 f hchk⟩

theorem rank_sqlFinding (i : Nat) : categoryRank (sqlFinding i).type = 0 := by
  show categoryRank "SQL Injection" = 0
  decide

theorem rank_xssFinding (i : Nat) : categoryRank (xssFinding i).type = 1 := by
  show categoryRank "Cross-Site Scripting (XSS)" = 1
  decide

theorem rank_secretsFinding (i : Nat) :
    categoryRank (secretsFinding i).type = 2 := by
  show categoryRank "Exposed Secrets" = 2
  decide

theorem rank_configsFinding (i : Nat) :
    categoryRank (configsFinding i).type = 3 := by
  show categoryRank "Security Misconfiguration" = 3
  decide

theorem findingsFor_len_le_one (code : String) (ty : String) (i : Nat) :
    (findingsFor code ty i).length ≤ 1 := by
  by_cases h1 : ty = "SQL Injection"
  · subst h1; rw [findingsFor_sql]
    cases ((splitLines code.data)[i]?).bind (sql_check i) <;> simp
  by_cases h2 : ty = "Cross-Site Scripting (XSS)"
  · subst h2; rw [findingsFor_xss]
    cases ((splitLines code.data)[i]?).bind (xss_check i) <;> simp
  by_cases h3 : ty = "Exposed Secrets"
  · subst h3; rw [findingsFor_secrets]
    cases ((splitLines code.data)[i]?).bind (secrets_check i) <;> simp
  by_cases h4 : ty = "Security Misconfiguration"
  · subst h4; rw [findingsFor_configs]
    cases ((splitLines code.data)[i]?).bind (configs_check i) <;> simp
  have : findingsFor code ty i = [] := by
    rw [findingsFor, List.filter_eq_nil_iff]
    intro f hf
    obtain ⟨j, -, hj | hj | hj | hj⟩ := mem_analyze_code hf <;>
      subst hj <;> simp only [sqlFinding, xssFinding, secretsFinding,
        configsFinding, Bool.and_eq_true, beq_iff_eq] <;>
      exact fun hcon => by
        first
        | exact h1 hcon.1.symm
        | exact h2 hcon.1.symm
        | exact h3 hcon.1.symm
        | exact h4 hcon.1.symm
  simp [this]

/-! ### The log analyzer's loop and the Reporter's de-duplication -/

theorem analyze_logs_loop_eq (L : List Char) :
    ∀ (ms : List (Nat × List Char)) (acc : List Finding),
      analyze_logs_loop L ms acc = acc ++ ms.map (travFinding L) := by
  intro ms
  induction ms with
  | nil => intro acc; simp [analyze_logs_loop]
  | cons m ms ih =>
    intro acc
    rw [analyze_logs_loop, ih]
    simp

theorem dedup_loop_eq :
    ∀ (vs acc : List Finding) (seen : List String),
      dedup_loop vs acc seen
        = acc ++ firstPerType (vs.filter fun v => !seen.contains v.type) := by
  intro vs
  induction vs with
  | nil => intro acc seen; simp [dedup_loop, firstPerType]
  | cons v vs ih =>
    intro acc seen
    simp only [dedup_loop]
    by_cases hv : v.type ∈ seen
    · have hc : seen.contains v.type = true := List.elem_iff.2 hv
      rw [if_pos hc, ih]
      congr 2
      rw [List.filter_cons, if_neg (by simpa using hv)]
    · have hc : seen.contains v.type = false := by
        cases h : seen.contains v.type
        · rfl
        · exact absurd (List.elem_iff.1 h) hv
      rw [if_neg (by simpa using hv), ih, List.append_assoc]
      congr 1
      rw [List.filter_cons, if_pos (by simpa using hv)]
      rw [show ([v] : List Finding) ++ firstPerType
            (vs.filter fun w => !(v.type :: seen).contains w.type)
          = v :: firstPerType
              (vs.filter fun w => !(v.type :: seen).contains w.type) from rfl]
      rw [firstPerType]
      congr 2
      rw [List.filter_filter]
      apply List.filter_congr
      intro w _
      simp only [List.contains_cons, Bool.not_or, bne]

theorem remove_duplicates_eq (vs : List Finding) :
    remove_duplicates vs = firstPerType vs := by
  rw [remove_duplicates, dedup_loop_eq]
  simp

/-! ### Claims -/

/-- C8: the code analyzer applied to the single-line input
`query = "SELECT * FROM users WHERE id=" + user_id` yields exactly one
finding, of type `SQL Injection`, risk level `Critical`, at `Line 1`. -/
theorem claim_C8 :
    analyze_code "query = \"SELECT * FROM users WHERE id=\" + user_id"
      = [{ type := "SQL Injection", risk_level := "Critical",
           description := "Potential SQL injection vulnerability detected. Raw SQL queries found without proper parameterization.",
           location := some "Line 1",
           fix := some "Use parameterized queries or an ORM to prevent SQL injection:\ncursor.execute(\"SELECT * FROM users WHERE id = %s\", (user_id,))" }] := by
  decide

/-- C4: for an input string that is not a well-formed URL (the validator
returns false), the URL analyzer returns exactly one `Invalid URL` / `Low`
finding; the result is the same whatever the network would have answered,
so no request is made, and the analyzer is total (no exception). -/
theorem claim_C4 (url : String) (outcome : HttpOutcome) :
    analyze_url url false outcome
      = [{ type := "Invalid URL", risk_level := "Low",
           description := "The provided URL is not valid." }] := rfl

/-- C2: the log analyzer emits exactly one `Directory Traversal` / `High`
finding per non-overlapping match of the traversal regex found globally over
the whole text, each located `Line <n>: <matched text>` with `n` one plus
the number of newline characters before the match's start offset; for the
log text `a\nb\n../../etc\n` the single match is reported on line 3. -/
theorem claim_C2 :
    (∀ logs : String,
      analyze_logs logs
        = (travMatches logs.data).map fun m =>
            { type := "Directory Traversal", risk_level := "High",
              description := "Suspicious pattern detected in logs indicating potential directory traversal attack.",
              location := some ("Line "
                  ++ Nat.repr ((logs.data.take m.1).count '\n' + 1)
                  ++ ": " ++ m.2.asString),
              fix := some "Implement input validation and WAF rules" })
  ∧ analyze_logs "a\nb\n../../etc\n"
      = [{ type := "Directory Traversal", risk_level := "High",
           description := "Suspicious pattern detected in logs indicating potential directory traversal attack.",
           location := some "Line 3: ../..",
           fix := some "Implement input validation and WAF rules" }] := by
  constructor
  · intro logs
    rw [analyze_logs, analyze_logs_loop_eq]
    simp only [List.nil_append]
    rfl
  · decide

/-- C9: the Reporter's de-duplication step keeps only the first finding of
each distinct type, preserving the original order of those kept; a sequence
with types `[A, B, A, C, B]` de-duplicates to the first-seen `A`, `B`, `C`
findings in that order. -/
theorem claim_C9 :
    (∀ vulns : List Finding, remove_duplicates vulns = firstPerType vulns)
  ∧ remove_duplicates
      [⟨"A", "High", "first A", none, none⟩,
       ⟨"B", "Low", "first B", none, none⟩,
       ⟨"A", "High", "second A", none, none⟩,
       ⟨"C", "Low", "first C", none, none⟩,
       ⟨"B", "Low", "second B", none, none⟩]
      = [⟨"A", "High", "first A", none, none⟩,
         ⟨"B", "Low", "first B", none, none⟩,
         ⟨"C", "Low", "first C", none, none⟩] :=
  ⟨remove_duplicates_eq, by decide⟩

/-- C7: every finding emitted by the code analyzer is located `Line <n>`
with `n` a 1-based line number between 1 and the number of lines of the
input split on newlines. -/
theorem claim_C7 (code : String) (f : Finding) (hf : f ∈ analyze_code code) :
    ∃ n : Nat, f.location = some ("Line " ++ Nat.repr n) ∧ 1 ≤ n ∧
      n ≤ (splitLines code.data).length := by
  obtain ⟨i, hi, hcase⟩ := mem_analyze_code hf
  refine ⟨i + 1, ?_, by omega, by omega⟩
  rcases hcase with rfl | rfl | rfl | rfl <;> rfl

theorem claim_C7_witness :
    (sqlFinding 0 ∈ analyze_code "query = \"SELECT * FROM users WHERE id=\" + user_id")
  ∧ ∃ n : Nat, (sqlFinding 0).location = some ("Line " ++ Nat.repr n) ∧ 1 ≤ n ∧
      n ≤ (splitLines ("query = \"SELECT * FROM users WHERE id=\" + user_id" : String).data).length :=
  ⟨by decide,
   claim_C7 "query = \"SELECT * FROM users WHERE id=\" + user_id" (sqlFinding 0) (by decide)⟩

/-- C10: every finding of the code analyzer has one of the four category
types, its risk level is determined by that type (`SQL Injection` and
`Exposed Secrets` are `Critical`, the other two `High`), and it always
carries a location and a fix. -/
theorem claim_C10 (code : String) (f : Finding)
    (hf : f ∈ analyze_code code) :
    (f.type = "SQL Injection" ∨ f.type = "Cross-Site Scripting (XSS)" ∨
     f.type = "Exposed Secrets" ∨ f.type = "Security Misconfiguration")
  ∧ (f.type = "SQL Injection" → f.risk_level = "Critical")
  ∧ (f.type = "Cross-Site Scripting (XSS)" → f.risk_level = "High")
  ∧ (f.type = "Exposed Secrets" → f.risk_level = "Critical")
  ∧ (f.type = "Security Misconfiguration" → f.risk_level = "High")
  ∧ f.location.isSome = true ∧ f.fix.isSome = true := by
  obtain ⟨i, -, hcase⟩ := mem_analyze_code hf
  rcases hcase with rfl | rfl | rfl | rfl <;>
    simp [sqlFinding, xssFinding, secretsFinding, configsFinding]

theorem claim_C10_witness :
    (secretsFinding 0 ∈ analyze_code "password")
  ∧ (secretsFinding 0).location.isSome = true
  ∧ (secretsFinding 0).fix.isSome = true :=
  ⟨by decide, (claim_C10 "password" (secretsFinding 0) (by decide)).2.2.2.2.2⟩

/-- C1: for a line matching an SQL-injection pattern, no `SQL Injection`
finding is emitted for that line when it also contains `parameterized` or
`prepare` (case-insensitive); analogously XSS findings are suppressed by
`escape` / `sanitize`; exposed-secrets and misconfiguration findings are
emitted whenever their patterns match, never suppressed by keywords. -/
theorem claim_C1 (code : String) (i : Nat) :
    (matchesAny sql_injection_patterns (lineAt code i) = true →
      (containsSub (lineAt code i) "parameterized"
        || containsSub (lineAt code i) "prepare") = true →
      findingsFor code "SQL Injection" i = [])
  ∧ (matchesAny xss_patterns (lineAt code i) = true →
      (containsSub (lineAt code i) "escape"
        || containsSub (lineAt code i) "sanitize") = true →
      findingsFor code "Cross-Site Scripting (XSS)" i = [])
  ∧ (i < (splitLines code.data).length →
      matchesAny exposed_secrets_patterns (lineAt code i) = true →
      findingsFor code "Exposed Secrets" i = [secretsFinding i])
  ∧ (i < (splitLines code.data).length →
      matchesAny insecure_configs_patterns (lineAt code i) = true →
      findingsFor code "Security Misconfiguration" i = [configsFinding i]) := by
  refine ⟨?_, ?_, ?_, ?_⟩
  · intro hm hk
    rw [findingsFor_sql]
    cases hE : (splitLines code.data)[i]? with
    | none => rfl
    | some l =>
      have hl : lineAt code i = l := by simp [lineAt, hE]
      rw [hl] at hm hk
      simp only [Option.some_bind]
      unfold sql_check
      rw [if_pos hm]
      have hfalse : (!containsSub l "parameterized"
          && !containsSub l "prepare") = false := by
        rcases Bool.or_eq_true_iff.1 hk with h | h <;> simp [h]
      rw [hfalse]
      rfl
  · intro hm hk
    rw [findingsFor_xss]
    cases hE : (splitLines code.data)[i]? with
    | none => rfl
    | some l =>
      have hl : lineAt code i = l := by simp [lineAt, hE]
      rw [hl] at hm hk
      simp only [Option.some_bind]
      unfold xss_check
      rw [if_pos hm]
      have hfalse : (!containsSub l "escape"
          && !containsSub l "sanitize") = false := by
        rcases Bool.or_eq_true_iff.1 hk with h | h <;> simp [h]
      rw [hfalse]
      rfl
  · intro hi hm
    rw [findingsFor_secrets, lineAt_getElem hi]
    simp only [Option.some_bind]
    unfold secrets_check
    rw [if_pos hm]
    rfl
  · intro hi hm
    rw [findingsFor_configs, lineAt_getElem hi]
    simp only [Option.some_bind]
    unfold configs_check
    rw [if_pos hm]
    rfl

theorem claim_C1_witness :
    findingsFor "SELECT a FROM b WHERE c prepare <script> escape password debug = true" "SQL Injection" 0 = []
  ∧ findingsFor "SELECT a FROM b WHERE c prepare <script> escape password debug = true" "Cross-Site Scripting (XSS)" 0 = []
  ∧ findingsFor "SELECT a FROM b WHERE c prepare <script> escape password debug = true" "Exposed Secrets" 0 = [secretsFinding 0]
  ∧ findingsFor "SELECT a FROM b WHERE c prepare <script> escape password debug = true" "Security Misconfiguration" 0 = [configsFinding 0] :=
  ⟨(claim_C1 "SELECT a FROM b WHERE c prepare <script> escape password debug = true" 0).1 (by decide) (by decide),
   (claim_C1 "SELECT a FROM b WHERE c prepare <script> escape password debug = true" 0).2.1 (by decide) (by decide),
   (claim_C1 "SELECT a FROM b WHERE c prepare <script> escape password debug = true" 0).2.2.1 (by decide) (by decide),
   (claim_C1 "SELECT a FROM b WHERE c prepare <script> escape password debug = true" 0).2.2.2 (by decide) (by decide)⟩

/-- C5: each (line, category) pair yields at most one finding; a line
matching one or several patterns of one category (unsuppressed) yields
exactly one finding for that category; and the line `password <script>`,
matching two categories, yields exactly two findings, one per category. -/
theorem claim_C5 (code : String) (i : Nat) :
    (∀ ty : String, (findingsFor code ty i).length ≤ 1)
  ∧ (i < (splitLines code.data).length →
      matchesAny sql_injection_patterns (lineAt code i) = true →
      containsSub (lineAt code i) "parameterized" = false →
      containsSub (lineAt code i) "prepare" = false →
      findingsFor code "SQL Injection" i = [sqlFinding i])
  ∧ (i < (splitLines code.data).length →
      matchesAny xss_patterns (lineAt code i) = true →
      containsSub (lineAt code i) "escape" = false →
      containsSub (lineAt code i) "sanitize" = false →
      findingsFor code "Cross-Site Scripting (XSS)" i = [xssFinding i])
  ∧ analyze_code "password <script>" = [xssFinding 0, secretsFinding 0] := by
  refine ⟨fun ty => findingsFor_len_le_one code ty i, ?_, ?_, by decide⟩
  · intro hi hm hp1 hp2
    rw [findingsFor_sql, lineAt_getElem hi]
    simp only [Option.some_bind]
    unfold sql_check
    rw [if_pos hm, if_pos (by rw [hp1, hp2]; decide)]
    rfl
  · intro hi hm hp1 hp2
    rw [findingsFor_xss, lineAt_getElem hi]
    simp only [Option.some_bind]
    unfold xss_check
    rw [if_pos hm, if_pos (by rw [hp1, hp2]; decide)]
    rfl

theorem claim_C5_witness :
    (findingsFor "SELECT a FROM b WHERE c UNION SELECT d" "SQL Injection" 0).length ≤ 1
  ∧ findingsFor "SELECT a FROM b WHERE c UNION SELECT d" "SQL Injection" 0
      = [sqlFinding 0] :=
  ⟨(claim_C5 "SELECT a FROM b WHERE c UNION SELECT d" 0).1 "SQL Injection",
   (claim_C5 "SELECT a FROM b WHERE c UNION SELECT d" 0).2.1
     (by decide) (by decide) (by decide) (by decide)⟩

/-- C6: the output of the code analyzer is ordered by category in the fixed
pass order (SQL injection, XSS, exposed secrets, insecure configurations)
and, within each category, by ascending line number. -/
theorem claim_C6 (code : String) :
    List.Pairwise codeOrder (analyze_code code) := by
  rw [analyze_code_eq]
  have pwA := pass_pairwise sql_check sqlFinding
    (fun _ _ _ h => sql_check_some h) (fun _ => rfl) (fun _ _ => rfl)
    (splitLines code.data)
  have pwB := pass_pairwise xss_check xssFinding
    (fun _ _ _ h => xss_check_some h) (fun _ => rfl) (fun _ _ => rfl)
    (splitLines code.data)
  have pwC := pass_pairwise secrets_check secretsFinding
    (fun _ _ _ h => secrets_check_some h) (fun _ => rfl) (fun _ _ => rfl)
    (splitLines code.data)
  have pwD := pass_pairwise configs_check configsFinding
    (fun _ _ _ h => configs_check_some h) (fun _ => rfl) (fun _ _ => rfl)
    (splitLines code.data)
  have hcross : ∀ (chk chk' : Nat → List Char → Option Finding)
      (F F' : Nat → Finding),
      (∀ i l f, chk i l = some f → f = F i) →
      (∀ i l f, chk' i l = some f → f = F' i) →
      (∀ i j, categoryRank (F i).type < categoryRank (F' j).type) →
      ∀ a ∈ (splitLines code.data).enum.filterMap (fun p => chk p.1 p.2),
      ∀ b ∈ (splitLines code.data).enum.filterMap (fun p => chk' p.1 p.2),
        codeOrder a b := by
    intro chk chk' F F' hs hs' hr a ha b hb
    obtain ⟨i, rfl⟩ := pass_mem_shape chk F hs ha
    obtain ⟨j, rfl⟩ := pass_mem_shape chk' F' hs' hb
    exact Or.inl (hr i j)
  have hAB := hcross sql_check xss_check sqlFinding xssFinding
    (fun _ _ _ h => sql_check_some h) (fun _ _ _ h => xss_check_some h)
    (fun i j => by rw [rank_sqlFinding, rank_xssFinding]; omega)
  have hAC := hcross sql_check secrets_check sqlFinding secretsFinding
    (fun _ _ _ h => sql_check_some h) (fun _ _ _ h => secrets_check_some h)
    (fun i j => by rw [rank_sqlFinding, rank_secretsFinding]; omega)
  have hAD := hcross sql_check configs_check sqlFinding configsFinding
    (fun _ _ _ h => sql_check_some h) (fun _ _ _ h => configs_check_some h)
    (fun i j => by rw [rank_sqlFinding, rank_configsFinding]; omega)
  have hBC := hcross xss_check secrets_check xssFinding secretsFinding
    (fun _ _ _ h => xss_check_some h) (fun _ _ _ h => secrets_check_some h)
    (fun i j => by rw [rank_xssFinding, rank_secretsFinding]; omega)
  have hBD := hcross xss_check configs_check xssFinding configsFinding
    (fun _ _ _ h => xss_check_some h) (fun _ _ _ h => configs_check_some h)
    (fun i j => by rw [rank_xssFinding, rank_configsFinding]; omega)
  have hCD := hcross secrets_check configs_check secretsFinding configsFinding
    (fun _ _ _ h => secrets_check_some h) (fun _ _ _ h => configs_check_some h)
    (fun i j => by rw [rank_secretsFinding, rank_configsFinding]; omega)
  refine List.pairwise_append.2
    ⟨List.pairwise_append.2
      ⟨List.pairwise_append.2 ⟨pwA, pwB, hAB⟩, pwC, ?_⟩, pwD, ?_⟩
  · intro a ha c hc
    rcases List.mem_append.1 ha with h | h
    · exact hAC a h c hc
    · exact hBC a h c hc
  · intro a ha d hd
    rcases List.mem_append.1 ha with h | h
    · rcases List.mem_append.1 h with h2 | h2
      · exact hAD a h2 d hd
      · exact hBD a h2 d hd
    · exact hCD a h d hd

/-- C3: on a successful GET, exactly one `Missing Security Headers` /
`Medium` finding is emitted per absent header among the four required ones,
each with a fix naming the missing header (so exactly four such findings
when all four are absent), and exactly one `Insecure Protocol` / `High`
finding is appended iff the URL's scheme is plain HTTP (`http://`). -/
theorem claim_C3 (url : String) (hs : List String) :
    ((analyze_url url true (.success hs)).filter
        fun f => f.type == "Missing Security Headers")
      = (security_headers.filterMap fun hm =>
          if !headerPresent hs hm.1 then
            some { type := "Missing Security Headers", risk_level := "Medium",
                   description := hm.2,
                   fix := some ("Add the " ++ hm.1
                     ++ " header to your server responses") }
          else none)
  ∧ ((analyze_url url true (.success [])).filter
        fun f => f.type == "Missing Security Headers").length = 4
  ∧ ((analyze_url url true (.success hs)).filter
        fun f => f.type == "Insecure Protocol")
      = (if url.startsWith "http://" then
          [{ type := "Insecure Protocol", risk_level := "High",
             description := "Website is using HTTP instead of HTTPS",
             fix := some "Implement HTTPS using a valid SSL/TLS certificate" }]
        else []) := by
  have hmain : ∀ hs' : List String,
      ((analyze_url url true (.success hs')).filter
          fun f => f.type == "Missing Security Headers")
        = security_headers.filterMap fun hm =>
            if !headerPresent hs' hm.1 then
              some { type := "Missing Security Headers",
                     risk_level := "Medium", description := hm.2,
                     fix := some ("Add the " ++ hm.1
                       ++ " header to your server responses") }
            else none := by
    intro hs'
    cases h1 : headerPresent hs' "Strict-Transport-Security" <;>
    cases h2 : headerPresent hs' "X-Content-Type-Options" <;>
    cases h3 : headerPresent hs' "X-Frame-Options" <;>
    cases h4 : headerPresent hs' "Content-Security-Policy" <;>
    cases h5 : url.startsWith "http://" <;>
      simp [analyze_url, security_headers, h1, h2, h3, h4, h5]
  refine ⟨hmain hs, ?_, ?_⟩
  · rw [hmain []]
    decide
  · cases h1 : headerPresent hs "Strict-Transport-Security" <;>
    cases h2 : headerPresent hs "X-Content-Type-Options" <;>
    cases h3 : headerPresent hs "X-Frame-Options" <;>
    cases h4 : headerPresent hs "Content-Security-Policy" <;>
    cases h5 : url.startsWith "http://" <;>
      simp [analyze_url, security_headers, h1, h2, h3, h4, h5]

end SecurityScanner
